import Mathlib

/-!
Verification of the SHA3 hash engine and query hasher of shathree.c
(sqlitecipher/sqlite3/shathree.c), shallowly embedded in Lean.

Machine 64-bit words are modelled as `Nat` with explicit truncation
`% 2^64` where C unsigned overflow can occur.  The 1600-bit Keccak state
is modelled both as a structure of 25 lanes (mirroring the `u.s[25]`
view of the C union) and, for the sponge layer, as a single natural
number below `2^1600` whose byte `j` (bits `8*j .. 8*j+7`) is `u.x[j]`
of the little-endian compile path (`SHA3_BYTEORDER==1234`, `ixMask=0`)
of the C source.
-/

/-- C macro `ROL64(a,x) = ((a<<x)|(a>>(64-x)))`, truncated to 64 bits. -/
def rol64 (a n : Nat) : Nat := ((a <<< n) ||| (a >>> (64 - n))) % 2^64

/-- C bitwise complement `~a` on a 64-bit unsigned word. -/
def not64 (a : Nat) : Nat := a ^^^ 0xFFFFFFFFFFFFFFFF

/-- The Keccak state: 25 lanes of 64 bits, `aij = u.s[5*i+j]`,
mirroring the C macros `DTAij`.  With the matrix convention of the
spec (lane `A[x,y]` stored at `s[5*y+x]`), field `aij` is `A[j,i]`. -/
structure KState where
  a00 : Nat
  a01 : Nat
  a02 : Nat
  a03 : Nat
  a04 : Nat
  a10 : Nat
  a11 : Nat
  a12 : Nat
  a13 : Nat
  a14 : Nat
  a20 : Nat
  a21 : Nat
  a22 : Nat
  a23 : Nat
  a24 : Nat
  a30 : Nat
  a31 : Nat
  a32 : Nat
  a33 : Nat
  a34 : Nat
  a40 : Nat
  a41 : Nat
  a42 : Nat
  a43 : Nat
  a44 : Nat
  deriving DecidableEq, Repr

/-- The 24 Keccak round constants, exactly the array `RC[]` of the C
source (identical to the list in the spec). -/
def rcList : List Nat :=
  [0x0000000000000001, 0x0000000000008082,
   0x800000000000808a, 0x8000000080008000,
   0x000000000000808b, 0x0000000080000001,
   0x8000000080008081, 0x8000000000008009,
   0x000000000000008a, 0x0000000000000088,
   0x0000000080008009, 0x000000008000000a,
   0x000000008000808b, 0x800000000000008b,
   0x8000000000008089, 0x8000000000008003,
   0x8000000000008002, 0x8000000000000080,
   0x000000000000800a, 0x800000008000000a,
   0x8000000080008081, 0x8000000000008080,
   0x0000000080000001, 0x8000000080008008]

/-- First quarter of the unrolled loop body of `KeccakF1600Step`
(C source lines 128-193): the round using `RC[i]`. -/
def keccakSub1 (rc : Nat) (p : KState) : KState :=
  let c0 := p.a00 ^^^ p.a10 ^^^ p.a20 ^^^ p.a30 ^^^ p.a40
  let c1 := p.a01 ^^^ p.a11 ^^^ p.a21 ^^^ p.a31 ^^^ p.a41
  let c2 := p.a02 ^^^ p.a12 ^^^ p.a22 ^^^ p.a32 ^^^ p.a42
  let c3 := p.a03 ^^^ p.a13 ^^^ p.a23 ^^^ p.a33 ^^^ p.a43
  let c4 := p.a04 ^^^ p.a14 ^^^ p.a24 ^^^ p.a34 ^^^ p.a44
  let d0 := c4 ^^^ rol64 c1 1
  let d1 := c0 ^^^ rol64 c2 1
  let d2 := c1 ^^^ rol64 c3 1
  let d3 := c2 ^^^ rol64 c4 1
  let d4 := c3 ^^^ rol64 c0 1
  let b0 := p.a00 ^^^ d0
  let b1 := rol64 (p.a11 ^^^ d1) 44
  let b2 := rol64 (p.a22 ^^^ d2) 43
  let b3 := rol64 (p.a33 ^^^ d3) 21
  let b4 := rol64 (p.a44 ^^^ d4) 14
  let n00 := b0 ^^^ (not64 b1 &&& b2) ^^^ rc
  let n11 := b1 ^^^ (not64 b2 &&& b3)
  let n22 := b2 ^^^ (not64 b3 &&& b4)
  let n33 := b3 ^^^ (not64 b4 &&& b0)
  let n44 := b4 ^^^ (not64 b0 &&& b1)
  let e2 := rol64 (p.a20 ^^^ d0) 3
  let e3 := rol64 (p.a31 ^^^ d1) 45
  let e4 := rol64 (p.a42 ^^^ d2) 61
  let e0 := rol64 (p.a03 ^^^ d3) 28
  let e1 := rol64 (p.a14 ^^^ d4) 20
  let n20 := e0 ^^^ (not64 e1 &&& e2)
  let n31 := e1 ^^^ (not64 e2 &&& e3)
  let n42 := e2 ^^^ (not64 e3 &&& e4)
  let n03 := e3 ^^^ (not64 e4 &&& e0)
  let n14 := e4 ^^^ (not64 e0 &&& e1)
  let f4 := rol64 (p.a40 ^^^ d0) 18
  let f0 := rol64 (p.a01 ^^^ d1) 1
  let f1 := rol64 (p.a12 ^^^ d2) 6
  let f2 := rol64 (p.a23 ^^^ d3) 25
  let f3 := rol64 (p.a34 ^^^ d4) 8
  let n40 := f0 ^^^ (not64 f1 &&& f2)
  let n01 := f1 ^^^ (not64 f2 &&& f3)
  let n12 := f2 ^^^ (not64 f3 &&& f4)
  let n23 := f3 ^^^ (not64 f4 &&& f0)
  let n34 := f4 ^^^ (not64 f0 &&& f1)
  let g1 := rol64 (p.a10 ^^^ d0) 36
  let g2 := rol64 (p.a21 ^^^ d1) 10
  let g3 := rol64 (p.a32 ^^^ d2) 15
  let g4 := rol64 (p.a43 ^^^ d3) 56
  let g0 := rol64 (p.a04 ^^^ d4) 27
  let n10 := g0 ^^^ (not64 g1 &&& g2)
  let n21 := g1 ^^^ (not64 g2 &&& g3)
  let n32 := g2 ^^^ (not64 g3 &&& g4)
  let n43 := g3 ^^^ (not64 g4 &&& g0)
  let n04 := g4 ^^^ (not64 g0 &&& g1)
  let h3 := rol64 (p.a30 ^^^ d0) 41
  let h4 := rol64 (p.a41 ^^^ d1) 2
  let h0 := rol64 (p.a02 ^^^ d2) 62
  let h1 := rol64 (p.a13 ^^^ d3) 55
  let h2 := rol64 (p.a24 ^^^ d4) 39
  let n30 := h0 ^^^ (not64 h1 &&& h2)
  let n41 := h1 ^^^ (not64 h2 &&& h3)
  let n02 := h2 ^^^ (not64 h3 &&& h4)
  let n13 := h3 ^^^ (not64 h4 &&& h0)
  let n24 := h4 ^^^ (not64 h0 &&& h1)
  ⟨n00, n01, n02, n03, n04, n10, n11, n12, n13, n14,
   n20, n21, n22, n23, n24, n30, n31, n32, n33, n34,
   n40, n41, n42, n43, n44⟩

/-- Second quarter of the unrolled loop body (C lines 195-260): the
round using `RC[i+1]`, reading and writing the permuted lane layout. -/
def keccakSub2 (rc : Nat) (p : KState) : KState :=
  let c0 := p.a00 ^^^ p.a20 ^^^ p.a40 ^^^ p.a10 ^^^ p.a30
  let c1 := p.a11 ^^^ p.a31 ^^^ p.a01 ^^^ p.a21 ^^^ p.a41
  let c2 := p.a22 ^^^ p.a42 ^^^ p.a12 ^^^ p.a32 ^^^ p.a02
  let c3 := p.a33 ^^^ p.a03 ^^^ p.a23 ^^^ p.a43 ^^^ p.a13
  let c4 := p.a44 ^^^ p.a14 ^^^ p.a34 ^^^ p.a04 ^^^ p.a24
  let d0 := c4 ^^^ rol64 c1 1
  let d1 := c0 ^^^ rol64 c2 1
  let d2 := c1 ^^^ rol64 c3 1
  let d3 := c2 ^^^ rol64 c4 1
  let d4 := c3 ^^^ rol64 c0 1
  let b0 := p.a00 ^^^ d0
  let b1 := rol64 (p.a31 ^^^ d1) 44
  let b2 := rol64 (p.a12 ^^^ d2) 43
  let b3 := rol64 (p.a43 ^^^ d3) 21
  let b4 := rol64 (p.a24 ^^^ d4) 14
  let n00 := b0 ^^^ (not64 b1 &&& b2) ^^^ rc
  let n31 := b1 ^^^ (not64 b2 &&& b3)
  let n12 := b2 ^^^ (not64 b3 &&& b4)
  let n43 := b3 ^^^ (not64 b4 &&& b0)
  let n24 := b4 ^^^ (not64 b0 &&& b1)
  let e2 := rol64 (p.a40 ^^^ d0) 3
  let e3 := rol64 (p.a21 ^^^ d1) 45
  let e4 := rol64 (p.a02 ^^^ d2) 61
  let e0 := rol64 (p.a33 ^^^ d3) 28
  let e1 := rol64 (p.a14 ^^^ d4) 20
  let n40 := e0 ^^^ (not64 e1 &&& e2)
  let n21 := e1 ^^^ (not64 e2 &&& e3)
  let n02 := e2 ^^^ (not64 e3 &&& e4)
  let n33 := e3 ^^^ (not64 e4 &&& e0)
  let n14 := e4 ^^^ (not64 e0 &&& e1)
  let f4 := rol64 (p.a30 ^^^ d0) 18
  let f0 := rol64 (p.a11 ^^^ d1) 1
  let f1 := rol64 (p.a42 ^^^ d2) 6
  let f2 := rol64 (p.a23 ^^^ d3) 25
  let f3 := rol64 (p.a04 ^^^ d4) 8
  let n30 := f0 ^^^ (not64 f1 &&& f2)
  let n11 := f1 ^^^ (not64 f2 &&& f3)
  let n42 := f2 ^^^ (not64 f3 &&& f4)
  let n23 := f3 ^^^ (not64 f4 &&& f0)
  let n04 := f4 ^^^ (not64 f0 &&& f1)
  let g1 := rol64 (p.a20 ^^^ d0) 36
  let g2 := rol64 (p.a01 ^^^ d1) 10
  let g3 := rol64 (p.a32 ^^^ d2) 15
  let g4 := rol64 (p.a13 ^^^ d3) 56
  let g0 := rol64 (p.a44 ^^^ d4) 27
  let n20 := g0 ^^^ (not64 g1 &&& g2)
  let n01 := g1 ^^^ (not64 g2 &&& g3)
  let n32 := g2 ^^^ (not64 g3 &&& g4)
  let n13 := g3 ^^^ (not64 g4 &&& g0)
  let n44 := g4 ^^^ (not64 g0 &&& g1)
  let h3 := rol64 (p.a10 ^^^ d0) 41
  let h4 := rol64 (p.a41 ^^^ d1) 2
  let h0 := rol64 (p.a22 ^^^ d2) 62
  let h1 := rol64 (p.a03 ^^^ d3) 55
  let h2 := rol64 (p.a34 ^^^ d4) 39
  let n10 := h0 ^^^ (not64 h1 &&& h2)
  let n41 := h1 ^^^ (not64 h2 &&& h3)
  let n22 := h2 ^^^ (not64 h3 &&& h4)
  let n03 := h3 ^^^ (not64 h4 &&& h0)
  let n34 := h4 ^^^ (not64 h0 &&& h1)
  ⟨n00, n01, n02, n03, n04, n10, n11, n12, n13, n14,
   n20, n21, n22, n23, n24, n30, n31, n32, n33, n34,
   n40, n41, n42, n43, n44⟩

/-- Third quarter of the unrolled loop body (C lines 262-327): the
round using `RC[i+2]`. -/
def keccakSub3 (rc : Nat) (p : KState) : KState :=
  let c0 := p.a00 ^^^ p.a40 ^^^ p.a30 ^^^ p.a20 ^^^ p.a10
  let c1 := p.a31 ^^^ p.a21 ^^^ p.a11 ^^^ p.a01 ^^^ p.a41
  let c2 := p.a12 ^^^ p.a02 ^^^ p.a42 ^^^ p.a32 ^^^ p.a22
  let c3 := p.a43 ^^^ p.a33 ^^^ p.a23 ^^^ p.a13 ^^^ p.a03
  let c4 := p.a24 ^^^ p.a14 ^^^ p.a04 ^^^ p.a44 ^^^ p.a34
  let d0 := c4 ^^^ rol64 c1 1
  let d1 := c0 ^^^ rol64 c2 1
  let d2 := c1 ^^^ rol64 c3 1
  let d3 := c2 ^^^ rol64 c4 1
  let d4 := c3 ^^^ rol64 c0 1
  let b0 := p.a00 ^^^ d0
  let b1 := rol64 (p.a21 ^^^ d1) 44
  let b2 := rol64 (p.a42 ^^^ d2) 43
  let b3 := rol64 (p.a13 ^^^ d3) 21
  let b4 := rol64 (p.a34 ^^^ d4) 14
  let n00 := b0 ^^^ (not64 b1 &&& b2) ^^^ rc
  let n21 := b1 ^^^ (not64 b2 &&& b3)
  let n42 := b2 ^^^ (not64 b3 &&& b4)
  let n13 := b3 ^^^ (not64 b4 &&& b0)
  let n34 := b4 ^^^ (not64 b0 &&& b1)
  let e2 := rol64 (p.a30 ^^^ d0) 3
  let e3 := rol64 (p.a01 ^^^ d1) 45
  let e4 := rol64 (p.a22 ^^^ d2) 61
  let e0 := rol64 (p.a43 ^^^ d3) 28
  let e1 := rol64 (p.a14 ^^^ d4) 20
  let n30 := e0 ^^^ (not64 e1 &&& e2)
  let n01 := e1 ^^^ (not64 e2 &&& e3)
  let n22 := e2 ^^^ (not64 e3 &&& e4)
  let n43 := e3 ^^^ (not64 e4 &&& e0)
  let n14 := e4 ^^^ (not64 e0 &&& e1)
  let f4 := rol64 (p.a10 ^^^ d0) 18
  let f0 := rol64 (p.a31 ^^^ d1) 1
  let f1 := rol64 (p.a02 ^^^ d2) 6
  let f2 := rol64 (p.a23 ^^^ d3) 25
  let f3 := rol64 (p.a44 ^^^ d4) 8
  let n10 := f0 ^^^ (not64 f1 &&& f2)
  let n31 := f1 ^^^ (not64 f2 &&& f3)
  let n02 := f2 ^^^ (not64 f3 &&& f4)
  let n23 := f3 ^^^ (not64 f4 &&& f0)
  let n44 := f4 ^^^ (not64 f0 &&& f1)
  let g1 := rol64 (p.a40 ^^^ d0) 36
  let g2 := rol64 (p.a11 ^^^ d1) 10
  let g3 := rol64 (p.a32 ^^^ d2) 15
  let g4 := rol64 (p.a03 ^^^ d3) 56
  let g0 := rol64 (p.a24 ^^^ d4) 27
  let n40 := g0 ^^^ (not64 g1 &&& g2)
  let n11 := g1 ^^^ (not64 g2 &&& g3)
  let n32 := g2 ^^^ (not64 g3 &&& g4)
  let n03 := g3 ^^^ (not64 g4 &&& g0)
  let n24 := g4 ^^^ (not64 g0 &&& g1)
  let h3 := rol64 (p.a20 ^^^ d0) 41
  let h4 := rol64 (p.a41 ^^^ d1) 2
  let h0 := rol64 (p.a12 ^^^ d2) 62
  let h1 := rol64 (p.a33 ^^^ d3) 55
  let h2 := rol64 (p.a04 ^^^ d4) 39
  let n20 := h0 ^^^ (not64 h1 &&& h2)
  let n41 := h1 ^^^ (not64 h2 &&& h3)
  let n12 := h2 ^^^ (not64 h3 &&& h4)
  let n33 := h3 ^^^ (not64 h4 &&& h0)
  let n04 := h4 ^^^ (not64 h0 &&& h1)
  ⟨n00, n01, n02, n03, n04, n10, n11, n12, n13, n14,
   n20, n21, n22, n23, n24, n30, n31, n32, n33, n34,
   n40, n41, n42, n43, n44⟩

/-- Fourth quarter of the unrolled loop body (C lines 329-394): the
round using `RC[i+3]`, returning to the standard lane layout. -/
def keccakSub4 (rc : Nat) (p : KState) : KState :=
  let c0 := p.a00 ^^^ p.a30 ^^^ p.a10 ^^^ p.a40 ^^^ p.a20
  let c1 := p.a21 ^^^ p.a01 ^^^ p.a31 ^^^ p.a11 ^^^ p.a41
  let c2 := p.a42 ^^^ p.a22 ^^^ p.a02 ^^^ p.a32 ^^^ p.a12
  let c3 := p.a13 ^^^ p.a43 ^^^ p.a23 ^^^ p.a03 ^^^ p.a33
  let c4 := p.a34 ^^^ p.a14 ^^^ p.a44 ^^^ p.a24 ^^^ p.a04
  let d0 := c4 ^^^ rol64 c1 1
  let d1 := c0 ^^^ rol64 c2 1
  let d2 := c1 ^^^ rol64 c3 1
  let d3 := c2 ^^^ rol64 c4 1
  let d4 := c3 ^^^ rol64 c0 1
  let b0 := p.a00 ^^^ d0
  let b1 := rol64 (p.a01 ^^^ d1) 44
  let b2 := rol64 (p.a02 ^^^ d2) 43
  let b3 := rol64 (p.a03 ^^^ d3) 21
  let b4 := rol64 (p.a04 ^^^ d4) 14
  let n00 := b0 ^^^ (not64 b1 &&& b2) ^^^ rc
  let n01 := b1 ^^^ (not64 b2 &&& b3)
  let n02 := b2 ^^^ (not64 b3 &&& b4)
  let n03 := b3 ^^^ (not64 b4 &&& b0)
  let n04 := b4 ^^^ (not64 b0 &&& b1)
  let e2 := rol64 (p.a10 ^^^ d0) 3
  let e3 := rol64 (p.a11 ^^^ d1) 45
  let e4 := rol64 (p.a12 ^^^ d2) 61
  let e0 := rol64 (p.a13 ^^^ d3) 28
  let e1 := rol64 (p.a14 ^^^ d4) 20
  let n10 := e0 ^^^ (not64 e1 &&& e2)
  let n11 := e1 ^^^ (not64 e2 &&& e3)
  let n12 := e2 ^^^ (not64 e3 &&& e4)
  let n13 := e3 ^^^ (not64 e4 &&& e0)
  let n14 := e4 ^^^ (not64 e0 &&& e1)
  let f4 := rol64 (p.a20 ^^^ d0) 18
  let f0 := rol64 (p.a21 ^^^ d1) 1
  let f1 := rol64 (p.a22 ^^^ d2) 6
  let f2 := rol64 (p.a23 ^^^ d3) 25
  let f3 := rol64 (p.a24 ^^^ d4) 8
  let n20 := f0 ^^^ (not64 f1 &&& f2)
  let n21 := f1 ^^^ (not64 f2 &&& f3)
  let n22 := f2 ^^^ (not64 f3 &&& f4)
  let n23 := f3 ^^^ (not64 f4 &&& f0)
  let n24 := f4 ^^^ (not64 f0 &&& f1)
  let g1 := rol64 (p.a30 ^^^ d0) 36
  let g2 := rol64 (p.a31 ^^^ d1) 10
  let g3 := rol64 (p.a32 ^^^ d2) 15
  let g4 := rol64 (p.a33 ^^^ d3) 56
  let g0 := rol64 (p.a34 ^^^ d4) 27
  let n30 := g0 ^^^ (not64 g1 &&& g2)
  let n31 := g1 ^^^ (not64 g2 &&& g3)
  let n32 := g2 ^^^ (not64 g3 &&& g4)
  let n33 := g3 ^^^ (not64 g4 &&& g0)
  let n34 := g4 ^^^ (not64 g0 &&& g1)
  let h3 := rol64 (p.a40 ^^^ d0) 41
  let h4 := rol64 (p.a41 ^^^ d1) 2
  let h0 := rol64 (p.a42 ^^^ d2) 62
  let h1 := rol64 (p.a43 ^^^ d3) 55
  let h2 := rol64 (p.a44 ^^^ d4) 39
  let n40 := h0 ^^^ (not64 h1 &&& h2)
  let n41 := h1 ^^^ (not64 h2 &&& h3)
  let n42 := h2 ^^^ (not64 h3 &&& h4)
  let n43 := h3 ^^^ (not64 h4 &&& h0)
  let n44 := h4 ^^^ (not64 h0 &&& h1)
  ⟨n00, n01, n02, n03, n04, n10, n11, n12, n13, n14,
   n20, n21, n22, n23, n24, n30, n31, n32, n33, n34,
   n40, n41, n42, n43, n44⟩

/-- One iteration of the `for(i=0;i<24;i+=4)` loop of
`KeccakF1600Step`: four consecutive rounds, constants `RC[i..i+3]`. -/
def keccakLoopBody (i : Nat) (p : KState) : KState :=
  keccakSub4 (rcList.getD (i+3) 0)
    (keccakSub3 (rcList.getD (i+2) 0)
      (keccakSub2 (rcList.getD (i+1) 0)
        (keccakSub1 (rcList.getD i 0) p)))

/-- `KeccakF1600Step`: the full 24-round Keccak-f[1600] permutation as
implemented (six iterations of the unrolled four-round loop body). -/
def KeccakF1600Step (p : KState) : KState :=
  [0, 4, 8, 12, 16, 20].foldl (fun s i => keccakLoopBody i s) p

/-- Reference Keccak round, written from the spec (section 4.1): Theta,
Rho (fixed per-position offsets, offset 0 at position (0,0) being the
identity rotation), Pi (`B[x,y]` takes the rotated lane from position
`((x+3y) mod 5, x)`), Chi and Iota, on lanes `A[x,y] = aij` with
`i = y`, `j = x`. -/
def keccakRound (rc : Nat) (p : KState) : KState :=
  let c0 := p.a00 ^^^ p.a10 ^^^ p.a20 ^^^ p.a30 ^^^ p.a40
  let c1 := p.a01 ^^^ p.a11 ^^^ p.a21 ^^^ p.a31 ^^^ p.a41
  let c2 := p.a02 ^^^ p.a12 ^^^ p.a22 ^^^ p.a32 ^^^ p.a42
  let c3 := p.a03 ^^^ p.a13 ^^^ p.a23 ^^^ p.a33 ^^^ p.a43
  let c4 := p.a04 ^^^ p.a14 ^^^ p.a24 ^^^ p.a34 ^^^ p.a44
  let d0 := c4 ^^^ rol64 c1 1
  let d1 := c0 ^^^ rol64 c2 1
  let d2 := c1 ^^^ rol64 c3 1
  let d3 := c2 ^^^ rol64 c4 1
  let d4 := c3 ^^^ rol64 c0 1
  let b00 := p.a00 ^^^ d0
  let b10 := rol64 (p.a11 ^^^ d1) 44
  let b20 := rol64 (p.a22 ^^^ d2) 43
  let b30 := rol64 (p.a33 ^^^ d3) 21
  let b40 := rol64 (p.a44 ^^^ d4) 14
  let b01 := rol64 (p.a03 ^^^ d3) 28
  let b11 := rol64 (p.a14 ^^^ d4) 20
  let b21 := rol64 (p.a20 ^^^ d0) 3
  let b31 := rol64 (p.a31 ^^^ d1) 45
  let b41 := rol64 (p.a42 ^^^ d2) 61
  let b02 := rol64 (p.a01 ^^^ d1) 1
  let b12 := rol64 (p.a12 ^^^ d2) 6
  let b22 := rol64 (p.a23 ^^^ d3) 25
  let b32 := rol64 (p.a34 ^^^ d4) 8
  let b42 := rol64 (p.a40 ^^^ d0) 18
  let b03 := rol64 (p.a04 ^^^ d4) 27
  let b13 := rol64 (p.a10 ^^^ d0) 36
  let b23 := rol64 (p.a21 ^^^ d1) 10
  let b33 := rol64 (p.a32 ^^^ d2) 15
  let b43 := rol64 (p.a43 ^^^ d3) 56
  let b04 := rol64 (p.a02 ^^^ d2) 62
  let b14 := rol64 (p.a13 ^^^ d3) 55
  let b24 := rol64 (p.a24 ^^^ d4) 39
  let b34 := rol64 (p.a30 ^^^ d0) 41
  let b44 := rol64 (p.a41 ^^^ d1) 2
  let n00 := b00 ^^^ (not64 b10 &&& b20) ^^^ rc
  let n01 := b10 ^^^ (not64 b20 &&& b30)
  let n02 := b20 ^^^ (not64 b30 &&& b40)
  let n03 := b30 ^^^ (not64 b40 &&& b00)
  let n04 := b40 ^^^ (not64 b00 &&& b10)
  let n10 := b01 ^^^ (not64 b11 &&& b21)
  let n11 := b11 ^^^ (not64 b21 &&& b31)
  let n12 := b21 ^^^ (not64 b31 &&& b41)
  let n13 := b31 ^^^ (not64 b41 &&& b01)
  let n14 := b41 ^^^ (not64 b01 &&& b11)
  let n20 := b02 ^^^ (not64 b12 &&& b22)
  let n21 := b12 ^^^ (not64 b22 &&& b32)
  let n22 := b22 ^^^ (not64 b32 &&& b42)
  let n23 := b32 ^^^ (not64 b42 &&& b02)
  let n24 := b42 ^^^ (not64 b02 &&& b12)
  let n30 := b03 ^^^ (not64 b13 &&& b23)
  let n31 := b13 ^^^ (not64 b23 &&& b33)
  let n32 := b23 ^^^ (not64 b33 &&& b43)
  let n33 := b33 ^^^ (not64 b43 &&& b03)
  let n34 := b43 ^^^ (not64 b03 &&& b13)
  let n40 := b04 ^^^ (not64 b14 &&& b24)
  let n41 := b14 ^^^ (not64 b24 &&& b34)
  let n42 := b24 ^^^ (not64 b34 &&& b44)
  let n43 := b34 ^^^ (not64 b44 &&& b04)
  let n44 := b44 ^^^ (not64 b04 &&& b14)
  ⟨n00, n01, n02, n03, n04, n10, n11, n12, n13, n14,
   n20, n21, n22, n23, n24, n30, n31, n32, n33, n34,
   n40, n41, n42, n43, n44⟩

/-- Reference Keccak-f[1600]: 24 rounds in order, round `i` XOR-ing the
round constant `RC[i]` into lane (0,0) (via `keccakRound`). -/
def keccakRef (p : KState) : KState :=
  (List.range 24).foldl (fun s i => keccakRound (rcList.getD i 0) s) p

/-- The lane relabelling used between the four unrolled sub-rounds:
the value whose standard home is lane `A[x,y]` is stored at lane
`A[x, (x+2y) mod 5]`; field `aij` of the result is field
`a(3*(i-j) mod 5)j` of the argument. -/
def permLayout (t : KState) : KState :=
  ⟨t.a00, t.a21, t.a42, t.a13, t.a34,
   t.a30, t.a01, t.a22, t.a43, t.a14,
   t.a10, t.a31, t.a02, t.a23, t.a44,
   t.a40, t.a11, t.a32, t.a03, t.a24,
   t.a20, t.a41, t.a12, t.a33, t.a04⟩

theorem keccakSub1_spec (rc : Nat) (p : KState) :
    keccakSub1 rc p = permLayout (keccakRound rc p) := rfl

theorem keccakSub2_spec (rc : Nat) (p : KState) :
    keccakSub2 rc (permLayout p) =
      permLayout (permLayout (keccakRound rc p)) := rfl

theorem keccakSub3_spec (rc : Nat) (p : KState) :
    keccakSub3 rc (permLayout (permLayout p)) =
      permLayout (permLayout (permLayout (keccakRound rc p))) := rfl

theorem keccakSub4_spec (rc : Nat) (p : KState) :
    keccakSub4 rc (permLayout (permLayout (permLayout p))) =
      keccakRound rc p := rfl

/-- Claim C1: for every 1600-bit state, `KeccakF1600Step` computes
exactly 24 rounds of the Keccak-f[1600] permutation, each round
applying Theta, Rho (with the fixed per-position rotation offsets of
the spec), Pi, Chi and Iota (XOR-ing the 24 round constants into lane
(0,0) in round order): the unrolled implementation equals the
reference round-by-round definition bit for bit. -/
theorem KeccakF1600Step_eq_ref (p : KState) : KeccakF1600Step p = keccakRef p := by
  have h : List.range 24 =
      [0,1,2,3,4,5,6,7,8,9,10,11,12,13,14,15,16,17,18,19,20,21,22,23] := rfl
  simp only [KeccakF1600Step, keccakRef, h, List.foldl, keccakLoopBody]
  simp only [keccakSub1_spec, keccakSub2_spec, keccakSub3_spec, keccakSub4_spec]

/-- Pack the 25 lanes into a single 1600-bit number: lane `5*i+j`
(field `aij`) occupies bits `64*(5*i+j) ..`.  On the little-endian
compile path this number's byte `j` is exactly `u.x[j]` of the C
union. -/
def kToState (s : KState) : Nat :=
  s.a00 ||| (s.a01 <<< 64) ||| (s.a02 <<< 128) ||| (s.a03 <<< 192) |||
  (s.a04 <<< 256) ||| (s.a10 <<< 320) ||| (s.a11 <<< 384) ||| (s.a12 <<< 448) |||
  (s.a13 <<< 512) ||| (s.a14 <<< 576) ||| (s.a20 <<< 640) ||| (s.a21 <<< 704) |||
  (s.a22 <<< 768) ||| (s.a23 <<< 832) ||| (s.a24 <<< 896) ||| (s.a30 <<< 960) |||
  (s.a31 <<< 1024) ||| (s.a32 <<< 1088) ||| (s.a33 <<< 1152) ||| (s.a34 <<< 1216) |||
  (s.a40 <<< 1280) ||| (s.a41 <<< 1344) ||| (s.a42 <<< 1408) ||| (s.a43 <<< 1472) |||
  (s.a44 <<< 1536)

/-- Split a 1600-bit number into the 25 lanes. -/
def stateToK (n : Nat) : KState :=
  ⟨n &&& 0xFFFFFFFFFFFFFFFF, (n >>> 64) &&& 0xFFFFFFFFFFFFFFFF,
   (n >>> 128) &&& 0xFFFFFFFFFFFFFFFF, (n >>> 192) &&& 0xFFFFFFFFFFFFFFFF,
   (n >>> 256) &&& 0xFFFFFFFFFFFFFFFF, (n >>> 320) &&& 0xFFFFFFFFFFFFFFFF,
   (n >>> 384) &&& 0xFFFFFFFFFFFFFFFF, (n >>> 448) &&& 0xFFFFFFFFFFFFFFFF,
   (n >>> 512) &&& 0xFFFFFFFFFFFFFFFF, (n >>> 576) &&& 0xFFFFFFFFFFFFFFFF,
   (n >>> 640) &&& 0xFFFFFFFFFFFFFFFF, (n >>> 704) &&& 0xFFFFFFFFFFFFFFFF,
   (n >>> 768) &&& 0xFFFFFFFFFFFFFFFF, (n >>> 832) &&& 0xFFFFFFFFFFFFFFFF,
   (n >>> 896) &&& 0xFFFFFFFFFFFFFFFF, (n >>> 960) &&& 0xFFFFFFFFFFFFFFFF,
   (n >>> 1024) &&& 0xFFFFFFFFFFFFFFFF, (n >>> 1088) &&& 0xFFFFFFFFFFFFFFFF,
   (n >>> 1152) &&& 0xFFFFFFFFFFFFFFFF, (n >>> 1216) &&& 0xFFFFFFFFFFFFFFFF,
   (n >>> 1280) &&& 0xFFFFFFFFFFFFFFFF, (n >>> 1344) &&& 0xFFFFFFFFFFFFFFFF,
   (n >>> 1408) &&& 0xFFFFFFFFFFFFFFFF, (n >>> 1472) &&& 0xFFFFFFFFFFFFFFFF,
   (n >>> 1536) &&& 0xFFFFFFFFFFFFFFFF⟩

/-- The Keccak permutation on the packed 1600-bit state. -/
def keccakStepNat (n : Nat) : Nat := kToState (KeccakF1600Step (stateToK n))

/-- `SHA3Context` of the C source (little-endian path, `ixMask = 0`),
with the state held as a single 1600-bit number.  `nPerm` is ghost
instrumentation counting the invocations of `KeccakF1600Step`. -/
structure SHA3Context where
  st : Nat
  nRate : Nat
  nLoaded : Nat
  nPerm : Nat
  deriving DecidableEq, Repr

/-- One iteration of the byte-wise loop of `SHA3Update` (C lines
450-463, little-endian path): XOR the byte into `u.x[nLoaded]`,
advance `nLoaded`, and permute when `nLoaded` reaches `nRate`. -/
def sha3UpdateByte (p : SHA3Context) (b : Nat) : SHA3Context :=
  let st := p.st ^^^ (b <<< (8 * p.nLoaded))
  let nLoaded := p.nLoaded + 1
  if nLoaded = p.nRate then
    { st := keccakStepNat st, nRate := p.nRate, nLoaded := 0, nPerm := p.nPerm + 1 }
  else
    { st := st, nRate := p.nRate, nLoaded := nLoaded, nPerm := p.nPerm }

/-- The byte-wise absorption path of `SHA3Update`. -/
def sha3UpdateBytes (p : SHA3Context) (data : List Nat) : SHA3Context :=
  data.foldl sha3UpdateByte p

/-- Little-endian value of a byte sequence: the number a C
`*(u64*)&aData[i]` load reads on a little-endian machine. -/
def leBytes : List Nat → Nat
  | [] => 0
  | b :: rest => b + (leBytes rest <<< 8)

/-- The 8-byte word fast path of `SHA3Update` (C lines 439-448): while
at least 8 input bytes remain, XOR the native-endian word into lane
`nLoaded/8` and permute when `nLoaded` reaches `nRate`; the remaining
tail goes through the byte-wise loop. -/
def sha3UpdateFast : SHA3Context → List Nat → SHA3Context
  | p, b0 :: b1 :: b2 :: b3 :: b4 :: b5 :: b6 :: b7 :: rest =>
    let w := leBytes [b0, b1, b2, b3, b4, b5, b6, b7]
    let st := p.st ^^^ (w <<< (64 * (p.nLoaded / 8)))
    let nLoaded := p.nLoaded + 8
    let p2 : SHA3Context :=
      if p.nRate ≤ nLoaded then
        { st := keccakStepNat st, nRate := p.nRate, nLoaded := 0, nPerm := p.nPerm + 1 }
      else
        { st := st, nRate := p.nRate, nLoaded := nLoaded, nPerm := p.nPerm }
    sha3UpdateFast p2 rest
  | p, rest => sha3UpdateBytes p rest

/-- `SHA3Update`: the word fast path runs when the input pointer is
8-byte aligned (environment fact, modelled by the `aligned` flag) and
`nLoaded` is a multiple of 8; otherwise the byte-wise loop runs. -/
def SHA3Update (aligned : Bool) (p : SHA3Context) (data : List Nat) : SHA3Context :=
  if aligned = true ∧ p.nLoaded % 8 = 0 then sha3UpdateFast p data
  else sha3UpdateBytes p data

/-- `SHA3Init`: zero the context and derive `nRate` from the requested
hash size (C lines 403-426; `~31` is the 32-bit mask `0xFFFFFFE0`). -/
def SHA3Init (iSize : Nat) : SHA3Context :=
  { st := 0
    nRate := if 128 ≤ iSize ∧ iSize ≤ 512
      then (1600 - ((iSize + 31) &&& 0xFFFFFFE0) * 2) / 8
      else (1600 - 2 * 256) / 8
    nLoaded := 0
    nPerm := 0 }

/-- `SHA3Final` (C lines 471-487): absorb the `pad10*1` padding (a
single 0x86 byte when exactly one free byte remains, otherwise 0x06,
skip to position `nRate - 1`, then 0x80), then read out the first
`nRate` bytes of the state (`u.x[i ^ ixMask]` with `ixMask = 0`).
Single-byte `SHA3Update` calls never enter the word fast path, so the
`aligned` flag is irrelevant here.  Returns the digest buffer together
with the final context. -/
def SHA3Final (p : SHA3Context) : List Nat × SHA3Context :=
  let p2 :=
    if p.nLoaded = p.nRate - 1 then
      SHA3Update false p [0x86]
    else
      let p1 := SHA3Update false p [0x06]
      let p1 := { p1 with nLoaded := p1.nRate - 1 }
      SHA3Update false p1 [0x80]
  ((List.range p2.nRate).map (fun i => (p2.st >>> (8 * i)) &&& 0xFF), p2)

/-- The digest of the incremental API: init, one update, final, first
`iSize/8` bytes of the returned buffer. -/
def sha3Digest (iSize : Nat) (data : List Nat) : List Nat :=
  (SHA3Final (SHA3Update false (SHA3Init iSize) data)).1.take (iSize / 8)

theorem shiftLeft_xor_distrib (a b n : Nat) :
    (a ^^^ b) <<< n = (a <<< n) ^^^ (b <<< n) := by
  apply Nat.eq_of_testBit_eq
  intro j
  simp [Nat.testBit_shiftLeft, Nat.testBit_xor, Bool.and_xor_distrib_left]

theorem xor_low_shiftLeft (a b k : Nat) (h : a < 2 ^ k) :
    a ^^^ (b <<< k) = a + (b <<< k) := by
  apply Nat.eq_of_testBit_eq
  intro j
  have hadd : a + (b <<< k) = 2 ^ k * b + a := by
    rw [Nat.shiftLeft_eq]; ring
  rw [hadd, Nat.testBit_mul_pow_two_add b h j, Nat.testBit_xor, Nat.testBit_shiftLeft]
  by_cases hj : j < k
  · have hk : ¬ (j ≥ k) := by omega
    simp [hj, hk]
  · have hk : k ≤ j := by omega
    have ha : a.testBit j = false :=
      Nat.testBit_lt_two_pow (lt_of_lt_of_le h (Nat.pow_le_pow_right (by norm_num) hk))
    simp [hj, hk, ha]

theorem leBytes_cons_shiftLeft (b : Nat) (r : List Nat) (m : Nat) (hb : b < 256) :
    leBytes (b :: r) <<< m = (b <<< m) ^^^ (leBytes r <<< (8 + m)) := by
  show (b + (leBytes r <<< 8)) <<< m = _
  rw [← xor_low_shiftLeft b (leBytes r) 8 hb, shiftLeft_xor_distrib,
    ← Nat.shiftLeft_add]

/-- Absorbing a byte chunk none of whose bytes except possibly the last
reaches the rate boundary: the bytes accumulate as one XOR of the
little-endian chunk value shifted to position `nLoaded`, with a single
permutation exactly when the last byte fills the buffer. -/
theorem sha3UpdateBytes_chunk (l : List Nat) (p : SHA3Context)
    (hb : ∀ b ∈ l, b < 256) (hlt : p.nLoaded < p.nRate)
    (hne : ∀ u, u + 1 < l.length → p.nLoaded + u + 1 ≠ p.nRate) :
    sha3UpdateBytes p l =
      if p.nLoaded + l.length = p.nRate then
        { st := keccakStepNat (p.st ^^^ (leBytes l <<< (8 * p.nLoaded))),
          nRate := p.nRate, nLoaded := 0, nPerm := p.nPerm + 1 }
      else
        { st := p.st ^^^ (leBytes l <<< (8 * p.nLoaded)),
          nRate := p.nRate, nLoaded := p.nLoaded + l.length, nPerm := p.nPerm } := by
  induction l generalizing p with
  | nil =>
    rw [if_neg (by simp only [List.length_nil, Nat.add_zero]; omega)]
    simp [sha3UpdateBytes, leBytes, Nat.zero_shiftLeft]
  | cons b r ih =>
    by_cases hr : r = []
    · subst hr
      simp only [sha3UpdateBytes, List.foldl, sha3UpdateByte, List.length_cons,
        List.length_nil, leBytes, Nat.zero_shiftLeft, Nat.add_zero]
    · have hne0 : p.nLoaded + 1 ≠ p.nRate := by
        have := hne 0 (by simp [List.length_pos.mpr hr])
        omega
      have hstep : sha3UpdateByte p b =
          { st := p.st ^^^ (b <<< (8 * p.nLoaded)), nRate := p.nRate,
            nLoaded := p.nLoaded + 1, nPerm := p.nPerm } := by
        simp only [sha3UpdateByte]
        rw [if_neg hne0]
      have hbr : ∀ x ∈ r, x < 256 := fun x hx => hb x (List.mem_cons_of_mem b hx)
      have hcons : sha3UpdateBytes p (b :: r) =
          sha3UpdateBytes (sha3UpdateByte p b) r := rfl
      rw [hcons, hstep, ih _ hbr (by simp; omega)
        (by intro u hu; simp at hu ⊢; have := hne (u+1) (by simp; omega); omega)]
      have hst : p.st ^^^ (b <<< (8 * p.nLoaded)) ^^^
          (leBytes r <<< (8 * (p.nLoaded + 1)))
          = p.st ^^^ (leBytes (b :: r) <<< (8 * p.nLoaded)) := by
        rw [leBytes_cons_shiftLeft b r _ (hb b (List.mem_cons_self b r)),
          Nat.xor_assoc]
        have h8 : 8 + 8 * p.nLoaded = 8 * (p.nLoaded + 1) := by ring
        rw [h8]
      simp only [List.length_cons]
      by_cases hc : p.nLoaded + (r.length + 1) = p.nRate
      · rw [if_pos (by omega : p.nLoaded + 1 + r.length = p.nRate), if_pos hc, hst]
      · rw [if_neg (by omega), if_neg hc, hst,
          show p.nLoaded + 1 + r.length = p.nLoaded + (r.length + 1) from by omega]

theorem sha3UpdateBytes_append (p : SHA3Context) (l1 l2 : List Nat) :
    sha3UpdateBytes p (l1 ++ l2) = sha3UpdateBytes (sha3UpdateBytes p l1) l2 := by
  simp [sha3UpdateBytes, List.foldl_append]

theorem sha3UpdateByte_nRate (p : SHA3Context) (b : Nat) :
    (sha3UpdateByte p b).nRate = p.nRate := by
  simp only [sha3UpdateByte]
  split <;> rfl

theorem sha3UpdateByte_inv (p : SHA3Context) (b : Nat)
    (hlt : p.nLoaded < p.nRate) :
    (sha3UpdateByte p b).nLoaded < (sha3UpdateByte p b).nRate := by
  simp only [sha3UpdateByte]
  split <;> simp <;> omega

theorem sha3UpdateBytes_nRate (l : List Nat) (p : SHA3Context) :
    (sha3UpdateBytes p l).nRate = p.nRate := by
  induction l generalizing p with
  | nil => rfl
  | cons b r ih =>
    rw [show sha3UpdateBytes p (b :: r) = sha3UpdateBytes (sha3UpdateByte p b) r
      from rfl, ih, sha3UpdateByte_nRate]

theorem sha3UpdateBytes_inv (l : List Nat) (p : SHA3Context)
    (hlt : p.nLoaded < p.nRate) :
    (sha3UpdateBytes p l).nLoaded < (sha3UpdateBytes p l).nRate := by
  induction l generalizing p with
  | nil => exact hlt
  | cons b r ih =>
    have h1 := sha3UpdateByte_inv p b hlt
    rw [sha3UpdateByte_nRate] at h1
    exact ih (sha3UpdateByte p b) (by rw [sha3UpdateByte_nRate]; exact h1)

/-- One 8-byte step of the word fast path equals eight byte-wise steps:
the little-endian word XOR lands on the same bits, the intermediate
positions cannot hit the rate boundary (both `nLoaded` and `nRate` are
multiples of 8), and the end-of-word boundary checks agree. -/
theorem sha3FastStep_eq (p : SHA3Context) (b0 b1 b2 b3 b4 b5 b6 b7 : Nat)
    (hb : ∀ b ∈ [b0, b1, b2, b3, b4, b5, b6, b7], b < 256)
    (h8 : p.nLoaded % 8 = 0) (hlt : p.nLoaded < p.nRate)
    (hr8 : p.nRate % 8 = 0) :
    (if p.nRate ≤ p.nLoaded + 8 then
      { st := keccakStepNat (p.st ^^^
          (leBytes [b0, b1, b2, b3, b4, b5, b6, b7] <<< (64 * (p.nLoaded / 8)))),
        nRate := p.nRate, nLoaded := 0, nPerm := p.nPerm + 1 : SHA3Context }
    else
      { st := p.st ^^^
          (leBytes [b0, b1, b2, b3, b4, b5, b6, b7] <<< (64 * (p.nLoaded / 8))),
        nRate := p.nRate, nLoaded := p.nLoaded + 8, nPerm := p.nPerm })
    = sha3UpdateBytes p [b0, b1, b2, b3, b4, b5, b6, b7] := by
  rw [sha3UpdateBytes_chunk [b0, b1, b2, b3, b4, b5, b6, b7] p hb hlt
    (by intro u hu; simp only [List.length_cons, List.length_nil] at hu; omega)]
  have hsh : 64 * (p.nLoaded / 8) = 8 * p.nLoaded := by omega
  rw [hsh, show ([b0, b1, b2, b3, b4, b5, b6, b7] : List Nat).length = 8 from rfl]
  by_cases hc : p.nLoaded + 8 = p.nRate
  · rw [if_pos hc, if_pos (by omega)]
  · rw [if_neg hc, if_neg (by omega)]

theorem sha3UpdateFast_eq_bytes (p : SHA3Context) (l : List Nat)
    (hb : ∀ b ∈ l, b < 256) (h8 : p.nLoaded % 8 = 0)
    (hlt : p.nLoaded < p.nRate) (hr8 : p.nRate % 8 = 0) :
    sha3UpdateFast p l = sha3UpdateBytes p l := by
  induction p, l using sha3UpdateFast.induct with
  | case1 p b0 b1 b2 b3 b4 b5 b6 b7 rest w st1 nl1 p2 ih =>
    have hb8 : ∀ b ∈ [b0, b1, b2, b3, b4, b5, b6, b7], b < 256 := by
      intro b hbm
      apply hb
      simp only [List.mem_cons] at hbm ⊢
      tauto
    have hbrest : ∀ b ∈ rest, b < 256 := by
      intro b hbm
      apply hb
      simp only [List.mem_cons]
      tauto
    have hp2 : p2 = sha3UpdateBytes p [b0, b1, b2, b3, b4, b5, b6, b7] :=
      sha3FastStep_eq p b0 b1 b2 b3 b4 b5 b6 b7 hb8 h8 hlt hr8
    have hiffields :
        p2.nRate = p.nRate ∧ p2.nLoaded % 8 = 0 ∧ p2.nLoaded < p.nRate := by
      rw [hp2, sha3UpdateBytes_chunk [b0, b1, b2, b3, b4, b5, b6, b7] p hb8 hlt
        (by intro u hu; simp only [List.length_cons, List.length_nil] at hu; omega),
        show ([b0, b1, b2, b3, b4, b5, b6, b7] : List Nat).length = 8 from rfl]
      by_cases hc : p.nLoaded + 8 = p.nRate
      · rw [if_pos hc]
        refine ⟨rfl, rfl, ?_⟩
        show (0 : Nat) < p.nRate
        omega
      · rw [if_neg hc]
        refine ⟨rfl, ?_, ?_⟩
        · show (p.nLoaded + 8) % 8 = 0
          omega
        · show p.nLoaded + 8 < p.nRate
          omega
    have hstep : sha3UpdateFast p (b0 :: b1 :: b2 :: b3 :: b4 :: b5 :: b6 :: b7 :: rest)
        = sha3UpdateFast p2 rest := rfl
    have happ : sha3UpdateBytes p (b0 :: b1 :: b2 :: b3 :: b4 :: b5 :: b6 :: b7 :: rest)
        = sha3UpdateBytes p2 rest := by
      rw [hp2, ← sha3UpdateBytes_append]
      rfl
    rw [hstep, happ]
    exact ih hbrest hiffields.2.1
      (by rw [hiffields.1]; exact hiffields.2.2)
      (by rw [hiffields.1]; exact hr8)
  | case2 p rest h =>
    rcases rest with _ | ⟨x0, _ | ⟨x1, _ | ⟨x2, _ | ⟨x3, _ | ⟨x4, _ | ⟨x5, _ | ⟨x6, _ | ⟨x7, r⟩⟩⟩⟩⟩⟩⟩⟩
    · rfl
    · rfl
    · rfl
    · rfl
    · rfl
    · rfl
    · rfl
    · rfl
    · exact (h x0 x1 x2 x3 x4 x5 x6 x7 r rfl).elim

theorem sha3UpdateFast_nRate (p : SHA3Context) (l : List Nat) :
    (sha3UpdateFast p l).nRate = p.nRate := by
  induction p, l using sha3UpdateFast.induct with
  | case1 p b0 b1 b2 b3 b4 b5 b6 b7 rest w st1 nl1 p2 ih =>
    have hstep : sha3UpdateFast p (b0 :: b1 :: b2 :: b3 :: b4 :: b5 :: b6 :: b7 :: rest)
        = sha3UpdateFast p2 rest := rfl
    rw [hstep, ih]
    by_cases hc : p.nRate ≤ p.nLoaded + 8
    · have hval : p2 = ⟨keccakStepNat st1, p.nRate, 0, p.nPerm + 1⟩ := if_pos hc
      rw [hval]
    · have hval : p2 = ⟨st1, p.nRate, nl1, p.nPerm⟩ := if_neg hc
      rw [hval]
  | case2 p rest h =>
    rcases rest with _ | ⟨x0, _ | ⟨x1, _ | ⟨x2, _ | ⟨x3, _ | ⟨x4, _ | ⟨x5, _ | ⟨x6, _ | ⟨x7, r⟩⟩⟩⟩⟩⟩⟩⟩
    · exact sha3UpdateBytes_nRate [] p
    · exact sha3UpdateBytes_nRate [x0] p
    · exact sha3UpdateBytes_nRate [x0, x1] p
    · exact sha3UpdateBytes_nRate [x0, x1, x2] p
    · exact sha3UpdateBytes_nRate [x0, x1, x2, x3] p
    · exact sha3UpdateBytes_nRate [x0, x1, x2, x3, x4] p
    · exact sha3UpdateBytes_nRate [x0, x1, x2, x3, x4, x5] p
    · exact sha3UpdateBytes_nRate [x0, x1, x2, x3, x4, x5, x6] p
    · exact (h x0 x1 x2 x3 x4 x5 x6 x7 r rfl).elim

theorem sha3UpdateFast_inv (p : SHA3Context) (l : List Nat)
    (hlt : p.nLoaded < p.nRate) :
    (sha3UpdateFast p l).nLoaded < (sha3UpdateFast p l).nRate := by
  induction p, l using sha3UpdateFast.induct with
  | case1 p b0 b1 b2 b3 b4 b5 b6 b7 rest w st1 nl1 p2 ih =>
    have hstep : sha3UpdateFast p (b0 :: b1 :: b2 :: b3 :: b4 :: b5 :: b6 :: b7 :: rest)
        = sha3UpdateFast p2 rest := rfl
    rw [hstep]
    apply ih
    by_cases hc : p.nRate ≤ p.nLoaded + 8
    · have hval : p2 = ⟨keccakStepNat st1, p.nRate, 0, p.nPerm + 1⟩ := if_pos hc
      rw [hval]
      show (0 : Nat) < p.nRate
      omega
    · have hval : p2 = ⟨st1, p.nRate, nl1, p.nPerm⟩ := if_neg hc
      rw [hval]
      show p.nLoaded + 8 < p.nRate
      omega
  | case2 p rest h =>
    rcases rest with _ | ⟨x0, _ | ⟨x1, _ | ⟨x2, _ | ⟨x3, _ | ⟨x4, _ | ⟨x5, _ | ⟨x6, _ | ⟨x7, r⟩⟩⟩⟩⟩⟩⟩⟩
    · exact sha3UpdateBytes_inv [] p hlt
    · exact sha3UpdateBytes_inv [x0] p hlt
    · exact sha3UpdateBytes_inv [x0, x1] p hlt
    · exact sha3UpdateBytes_inv [x0, x1, x2] p hlt
    · exact sha3UpdateBytes_inv [x0, x1, x2, x3] p hlt
    · exact sha3UpdateBytes_inv [x0, x1, x2, x3, x4] p hlt
    · exact sha3UpdateBytes_inv [x0, x1, x2, x3, x4, x5] p hlt
    · exact sha3UpdateBytes_inv [x0, x1, x2, x3, x4, x5, x6] p hlt
    · exact (h x0 x1 x2 x3 x4 x5 x6 x7 r rfl).elim

theorem SHA3Update_nRate (al : Bool) (p : SHA3Context) (l : List Nat) :
    (SHA3Update al p l).nRate = p.nRate := by
  rw [SHA3Update]
  split
  · exact sha3UpdateFast_nRate p l
  · exact sha3UpdateBytes_nRate l p

theorem SHA3Update_inv (al : Bool) (p : SHA3Context) (l : List Nat)
    (hlt : p.nLoaded < p.nRate) :
    (SHA3Update al p l).nLoaded < (SHA3Update al p l).nRate := by
  rw [SHA3Update]
  split
  · exact sha3UpdateFast_inv p l hlt
  · exact sha3UpdateBytes_inv l p hlt

theorem SHA3Update_eq_bytes (al : Bool) (p : SHA3Context) (l : List Nat)
    (hb : ∀ b ∈ l, b < 256) (hlt : p.nLoaded < p.nRate)
    (hr8 : p.nRate % 8 = 0) :
    SHA3Update al p l = sha3UpdateBytes p l := by
  rw [SHA3Update]
  split
  · next hcond => exact sha3UpdateFast_eq_bytes p l hb hcond.2 hlt hr8
  · rfl

/-- Claim C4: after `SHA3Init` with a valid size the rate is
`(1600 - 2*iSize)/8` (144/136/104/72 for 224/256/384/512), the state
is all zero and `nLoaded` is 0; reaching `nRate` during absorption
permutes immediately and resets `nLoaded` to 0; and every `SHA3Update`
call preserves `nLoaded < nRate` (and the rate itself). -/
theorem sha3Init_update_inv (iSize : Nat)
    (hs : iSize = 224 ∨ iSize = 256 ∨ iSize = 384 ∨ iSize = 512) :
    (SHA3Init iSize).st = 0 ∧ (SHA3Init iSize).nLoaded = 0 ∧
    (SHA3Init iSize).nRate = (1600 - 2 * iSize) / 8 ∧
    ((iSize = 224 → (SHA3Init iSize).nRate = 144) ∧
     (iSize = 256 → (SHA3Init iSize).nRate = 136) ∧
     (iSize = 384 → (SHA3Init iSize).nRate = 104) ∧
     (iSize = 512 → (SHA3Init iSize).nRate = 72)) ∧
    (∀ (p : SHA3Context) (b : Nat), p.nLoaded + 1 = p.nRate →
      sha3UpdateByte p b =
        { st := keccakStepNat (p.st ^^^ (b <<< (8 * p.nLoaded))),
          nRate := p.nRate, nLoaded := 0, nPerm := p.nPerm + 1 }) ∧
    (∀ (al : Bool) (p : SHA3Context) (data : List Nat),
      p.nLoaded < p.nRate →
      (SHA3Update al p data).nRate = p.nRate ∧
      (SHA3Update al p data).nLoaded < p.nRate) := by
  refine ⟨rfl, rfl, ?_, ?_, ?_, ?_⟩
  · rcases hs with h | h | h | h <;> subst h <;> decide
  · refine ⟨?_, ?_, ?_, ?_⟩ <;> intro h <;> subst h <;> decide
  · intro p b hfull
    simp only [sha3UpdateByte]
    rw [if_pos hfull]
  · intro al p data hlt
    have h1 := SHA3Update_nRate al p data
    have h2 := SHA3Update_inv al p data hlt
    exact ⟨h1, by rw [h1] at h2; exact h2⟩

theorem sha3Init_update_inv_witness :
    (SHA3Init 256).st = 0 ∧ (SHA3Init 256).nLoaded = 0 ∧
    (SHA3Init 256).nRate = (1600 - 2 * 256) / 8 :=
  ⟨(sha3Init_update_inv 256 (Or.inr (Or.inl rfl))).1,
   (sha3Init_update_inv 256 (Or.inr (Or.inl rfl))).2.1,
   (sha3Init_update_inv 256 (Or.inr (Or.inl rfl))).2.2.1⟩

/-- Claim C2: for every valid size and every absorbed byte count,
`SHA3Final` pads with a single 0x86 byte when `nLoaded = nRate - 1`,
and otherwise with 0x06, a skip to position `nRate - 1`, and 0x80;
exactly one permutation runs during finalize; the digest buffer is the
byte-order-corrected first `nRate` state bytes, and the returned
digest is its first `iSize/8` bytes, hence exactly `iSize/8` bytes. -/
theorem sha3Final_spec (iSize : Nat)
    (hs : iSize = 224 ∨ iSize = 256 ∨ iSize = 384 ∨ iSize = 512)
    (p : SHA3Context) (hr : p.nRate = (1600 - 2 * iSize) / 8)
    (hlt : p.nLoaded < p.nRate) :
    (SHA3Final p).2.nPerm = p.nPerm + 1 ∧
    ((SHA3Final p).1.take (iSize / 8)).length = iSize / 8 ∧
    (p.nLoaded = p.nRate - 1 → (SHA3Final p).2 = sha3UpdateBytes p [0x86]) ∧
    (p.nLoaded ≠ p.nRate - 1 →
      (SHA3Final p).2 =
        sha3UpdateBytes
          { sha3UpdateBytes p [0x06] with nLoaded := p.nRate - 1 } [0x80]) ∧
    (SHA3Final p).1 =
      (List.range p.nRate).map (fun i => ((SHA3Final p).2.st >>> (8 * i)) &&& 0xFF) := by
  have hR : 2 ≤ p.nRate ∧ iSize / 8 ≤ p.nRate := by
    rcases hs with h | h | h | h <;> subst h <;> omega
  have hfin2 : (SHA3Final p).2 =
      (if p.nLoaded = p.nRate - 1 then sha3UpdateBytes p [0x86]
       else sha3UpdateBytes
         { sha3UpdateBytes p [0x06] with
             nLoaded := (sha3UpdateBytes p [0x06]).nRate - 1 } [0x80]) := rfl
  have hfin1 : (SHA3Final p).1 =
      (List.range (SHA3Final p).2.nRate).map
        (fun i => ((SHA3Final p).2.st >>> (8 * i)) &&& 0xFF) := rfl
  have h06 : p.nLoaded ≠ p.nRate - 1 →
      sha3UpdateBytes p [0x06] =
        ⟨p.st ^^^ (0x06 <<< (8 * p.nLoaded)), p.nRate, p.nLoaded + 1, p.nPerm⟩ := by
    intro hL
    show sha3UpdateByte p 0x06 = _
    simp only [sha3UpdateByte]
    rw [if_neg (by omega)]
  have hnr2 : (SHA3Final p).2.nRate = p.nRate := by
    rw [hfin2]
    by_cases hL : p.nLoaded = p.nRate - 1
    · rw [if_pos hL, sha3UpdateBytes_nRate]
    · rw [if_neg hL, sha3UpdateBytes_nRate, h06 hL]
  refine ⟨?_, ?_, ?_, ?_, ?_⟩
  · rw [hfin2]
    by_cases hL : p.nLoaded = p.nRate - 1
    · rw [if_pos hL]
      show (sha3UpdateByte p 0x86).nPerm = p.nPerm + 1
      simp only [sha3UpdateByte]
      rw [if_pos (by omega)]
    · rw [if_neg hL, h06 hL]
      show (sha3UpdateByte ⟨p.st ^^^ (0x06 <<< (8 * p.nLoaded)), p.nRate,
        p.nRate - 1, p.nPerm⟩ 0x80).nPerm = p.nPerm + 1
      simp only [sha3UpdateByte]
      rw [if_pos (by show p.nRate - 1 + 1 = p.nRate; omega)]
  · rw [hfin1]
    simp only [List.length_take, List.length_map, List.length_range, hnr2]
    omega
  · intro hL
    rw [hfin2, if_pos hL]
  · intro hL
    rw [hfin2, if_neg hL, sha3UpdateBytes_nRate, h06 hL]
  · rw [hfin1, hnr2]

theorem sha3Final_spec_witness :
    (SHA3Final (SHA3Init 256)).2.nPerm = (SHA3Init 256).nPerm + 1 ∧
    ((SHA3Final (SHA3Init 256)).1.take (256 / 8)).length = 256 / 8 :=
  ⟨(sha3Final_spec 256 (Or.inr (Or.inl rfl)) (SHA3Init 256) (by decide) (by decide)).1,
   (sha3Final_spec 256 (Or.inr (Or.inl rfl)) (SHA3Init 256) (by decide) (by decide)).2.1⟩

/-- Digest computed from a list of update chunks, each carrying the
8-byte-alignment of its input pointer. -/
def sha3DigestChunks (iSize : Nat) (chunks : List (List Nat × Bool)) : List Nat :=
  (SHA3Final (chunks.foldl (fun c ch => SHA3Update ch.2 c ch.1)
    (SHA3Init iSize))).1.take (iSize / 8)

theorem chunksFold_eq_bytes (chunks : List (List Nat × Bool)) (c : SHA3Context)
    (hb : ∀ ch ∈ chunks, ∀ b ∈ ch.1, b < 256)
    (hlt : c.nLoaded < c.nRate) (hr8 : c.nRate % 8 = 0) :
    chunks.foldl (fun c ch => SHA3Update ch.2 c ch.1) c
      = sha3UpdateBytes c (chunks.map Prod.fst).flatten := by
  induction chunks generalizing c with
  | nil => rfl
  | cons ch rest ih =>
    have hch : ∀ b ∈ ch.1, b < 256 := hb ch (List.mem_cons_self ch rest)
    have hrest : ∀ x ∈ rest, ∀ b ∈ x.1, b < 256 :=
      fun x hx => hb x (List.mem_cons_of_mem ch hx)
    rw [List.foldl_cons, SHA3Update_eq_bytes ch.2 c ch.1 hch hlt hr8,
      ih (sha3UpdateBytes c ch.1) hrest (sha3UpdateBytes_inv ch.1 c hlt)
        (by rw [sha3UpdateBytes_nRate]; exact hr8),
      show ((ch :: rest).map Prod.fst).flatten = ch.1 ++ (rest.map Prod.fst).flatten
        from by simp,
      sha3UpdateBytes_append]

/-- Claim C3: the digest is independent of how the input is split into
update chunks (with any per-chunk pointer alignment), and the word
fast path of `SHA3Update` is observably equivalent to the byte-wise
path. -/
theorem sha3_chunk_independence (iSize : Nat)
    (hs : iSize = 224 ∨ iSize = 256 ∨ iSize = 384 ∨ iSize = 512)
    (data : List Nat) (chunks : List (List Nat × Bool))
    (hjoin : (chunks.map Prod.fst).flatten = data) (hb : ∀ b ∈ data, b < 256) :
    sha3DigestChunks iSize chunks = sha3Digest iSize data ∧
    (∀ al : Bool, SHA3Update al (SHA3Init iSize) data
      = sha3UpdateBytes (SHA3Init iSize) data) := by
  subst hjoin
  have hinv : (SHA3Init iSize).nLoaded < (SHA3Init iSize).nRate := by
    rcases hs with h | h | h | h <;> subst h <;> decide
  have hr8 : (SHA3Init iSize).nRate % 8 = 0 := by
    rcases hs with h | h | h | h <;> subst h <;> decide
  have hbc : ∀ ch ∈ chunks, ∀ b ∈ ch.1, b < 256 := by
    intro ch hch b hbb
    exact hb b (List.mem_flatten.mpr ⟨ch.1, List.mem_map_of_mem Prod.fst hch, hbb⟩)
  constructor
  · unfold sha3DigestChunks sha3Digest
    rw [chunksFold_eq_bytes chunks (SHA3Init iSize) hbc hinv hr8,
      SHA3Update_eq_bytes false (SHA3Init iSize) _ hb hinv hr8]
  · intro al
    exact SHA3Update_eq_bytes al (SHA3Init iSize) _ hb hinv hr8

theorem sha3_chunk_independence_witness :
    sha3DigestChunks 256 [([0x61], true), ([0x62, 0x63], false)]
      = sha3Digest 256 [0x61, 0x62, 0x63] :=
  (sha3_chunk_independence 256 (Or.inr (Or.inl rfl)) [0x61, 0x62, 0x63]
    [([0x61], true), ([0x62, 0x63], false)] rfl (by decide)).1

/-- Claim C5: for each of the four sizes, the digest of the empty
input and of "abc" (bytes 0x61 0x62 0x63) computed by
SHA3Init/SHA3Update/SHA3Final equals the published standard SHA3
digest (FIPS 202 known-answer tests). -/
theorem sha3_known_answer_tests :
    sha3Digest 224 [] = [0x6b, 0x4e, 0x03, 0x42, 0x36, 0x67, 0xdb, 0xb7, 0x3b,
      0x6e, 0x15, 0x45, 0x4f, 0x0e, 0xb1, 0xab, 0xd4, 0x59, 0x7f, 0x9a, 0x1b,
      0x07, 0x8e, 0x3f, 0x5b, 0x5a, 0x6b, 0xc7] ∧
    sha3Digest 224 [0x61, 0x62, 0x63] = [0xe6, 0x42, 0x82, 0x4c, 0x3f, 0x8c,
      0xf2, 0x4a, 0xd0, 0x92, 0x34, 0xee, 0x7d, 0x3c, 0x76, 0x6f, 0xc9, 0xa3,
      0xa5, 0x16, 0x8d, 0x0c, 0x94, 0xad, 0x73, 0xb4, 0x6f, 0xdf] ∧
    sha3Digest 256 [] = [0xa7, 0xff, 0xc6, 0xf8, 0xbf, 0x1e, 0xd7, 0x66, 0x51,
      0xc1, 0x47, 0x56, 0xa0, 0x61, 0xd6, 0x62, 0xf5, 0x80, 0xff, 0x4d, 0xe4,
      0x3b, 0x49, 0xfa, 0x82, 0xd8, 0x0a, 0x4b, 0x80, 0xf8, 0x43, 0x4a] ∧
    sha3Digest 256 [0x61, 0x62, 0x63] = [0x3a, 0x98, 0x5d, 0xa7, 0x4f, 0xe2,
      0x25, 0xb2, 0x04, 0x5c, 0x17, 0x2d, 0x6b, 0xd3, 0x90, 0xbd, 0x85, 0x5f,
      0x08, 0x6e, 0x3e, 0x9d, 0x52, 0x5b, 0x46, 0xbf, 0xe2, 0x45, 0x11, 0x43,
      0x15, 0x32] ∧
    sha3Digest 384 [] = [0x0c, 0x63, 0xa7, 0x5b, 0x84, 0x5e, 0x4f, 0x7d, 0x01,
      0x10, 0x7d, 0x85, 0x2e, 0x4c, 0x24, 0x85, 0xc5, 0x1a, 0x50, 0xaa, 0xaa,
      0x94, 0xfc, 0x61, 0x99, 0x5e, 0x71, 0xbb, 0xee, 0x98, 0x3a, 0x2a, 0xc3,
      0x71, 0x38, 0x31, 0x26, 0x4a, 0xdb, 0x47, 0xfb, 0x6b, 0xd1, 0xe0, 0x58,
      0xd5, 0xf0, 0x04] ∧
    sha3Digest 384 [0x61, 0x62, 0x63] = [0xec, 0x01, 0x49, 0x82, 0x88, 0x51,
      0x6f, 0xc9, 0x26, 0x45, 0x9f, 0x58, 0xe2, 0xc6, 0xad, 0x8d, 0xf9, 0xb4,
      0x73, 0xcb, 0x0f, 0xc0, 0x8c, 0x25, 0x96, 0xda, 0x7c, 0xf0, 0xe4, 0x9b,
      0xe4, 0xb2, 0x98, 0xd8, 0x8c, 0xea, 0x92, 0x7a, 0xc7, 0xf5, 0x39, 0xf1,
      0xed, 0xf2, 0x28, 0x37, 0x6d, 0x25] ∧
    sha3Digest 512 [] = [0xa6, 0x9f, 0x73, 0xcc, 0xa2, 0x3a, 0x9a, 0xc5, 0xc8,
      0xb5, 0x67, 0xdc, 0x18, 0x5a, 0x75, 0x6e, 0x97, 0xc9, 0x82, 0x16, 0x4f,
      0xe2, 0x58, 0x59, 0xe0, 0xd1, 0xdc, 0xc1, 0x47, 0x5c, 0x80, 0xa6, 0x15,
      0xb2, 0x12, 0x3a, 0xf1, 0xf5, 0xf9, 0x4c, 0x11, 0xe3, 0xe9, 0x40, 0x2c,
      0x3a, 0xc5, 0x58, 0xf5, 0x00, 0x19, 0x9d, 0x95, 0xb6, 0xd3, 0xe3, 0x01,
      0x75, 0x85, 0x86, 0x28, 0x1d, 0xcd, 0x26] ∧
    sha3Digest 512 [0x61, 0x62, 0x63] = [0xb7, 0x51, 0x85, 0x0b, 0x1a, 0x57,
      0x16, 0x8a, 0x56, 0x93, 0xcd, 0x92, 0x4b, 0x6b, 0x09, 0x6e, 0x08, 0xf6,
      0x21, 0x82, 0x74, 0x44, 0xf7, 0x0d, 0x88, 0x4f, 0x5d, 0x02, 0x40, 0xd2,
      0x71, 0x2e, 0x10, 0xe1, 0x16, 0xe9, 0x19, 0x2a, 0xf3, 0xc9, 0x1a, 0x7e,
      0xc5, 0x76, 0x47, 0xe3, 0x93, 0x40, 0x57, 0x34, 0x0b, 0x4c, 0xf4, 0x08,
      0xd5, 0xa5, 0x65, 0x92, 0xf8, 0x27, 0x4e, 0xec, 0x53, 0xf0] := by
  refine ⟨?_, ?_, ?_, ?_, ?_, ?_, ?_, ?_⟩ <;> decide

/-- An SQLite value as seen by `sha3Func`: NULL, a blob (hashed as raw
bytes), a text value, or any other non-null type carrying the UTF-8
rendering produced for it by the host's `sqlite3_value_text`. -/
inductive SqlValue where
  | null
  | blob (bytes : List Nat)
  | text (bytes : List Nat)
  | other (rendered : List Nat)
  deriving DecidableEq, Repr

/-- The bytes the C code feeds to `SHA3Update` for a non-null value
(`sqlite3_value_blob` for blobs, `sqlite3_value_text` otherwise). -/
def sqlValueData : SqlValue → List Nat
  | .null => []
  | .blob b => b
  | .text t => t
  | .other r => r

/-- Result of an SQL function call: an error with its message bytes,
the SQL NULL result, or a blob result. -/
inductive FuncResult where
  | err (msg : List Nat)
  | nullResult
  | blob (bytes : List Nat)
  deriving DecidableEq, Repr

/-- ASCII bytes of a literal string. -/
def strBytes (s : String) : List Nat := s.data.map Char.toNat

/-- The exact error text of the size check in `sha3Func` and
`sha3QueryFunc`. -/
def sizeErrMsg : List Nat := strBytes "SHA3 size should be one of: 224 256 384 512"

/-- Body of `sha3Func` after the size dispatch (C lines 519-526): NULL
input returns with no result set (SQL NULL) and no hash state;
otherwise init, one update with the value bytes, final, and the first
`iSize/8` digest bytes.  The second component is instrumentation: the
hash context if one was ever initialized. -/
def sha3FuncRun (aligned : Bool) (arg : SqlValue) (iSize : Nat) :
    FuncResult × Option SHA3Context :=
  match arg with
  | .null => (.nullResult, none)
  | v =>
    let cx := SHA3Init iSize
    let cx := SHA3Update aligned cx (sqlValueData v)
    let r := SHA3Final cx
    (.blob (r.1.take (iSize / 8)), some r.2)

/-- `sha3Func` (C lines 500-527): `sizeArg = none` models `argc == 1`
(default size 256); an explicit size outside {224,256,384,512} is
rejected before anything else. -/
def sha3Func (aligned : Bool) (arg : SqlValue) (sizeArg : Option Int) :
    FuncResult × Option SHA3Context :=
  match sizeArg with
  | none => sha3FuncRun aligned arg 256
  | some z =>
    if z ≠ 224 ∧ z ≠ 256 ∧ z ≠ 384 ∧ z ≠ 512 then (.err sizeErrMsg, none)
    else sha3FuncRun aligned arg z.toNat

/-- Decimal ASCII bytes of a number, as `hash_step_vformat` emits for
the `%d` of a length prefix. -/
def decimalBytes (n : Nat) : List Nat := strBytes (Nat.repr n)

/-- The byte-extraction loop of the Integer/Float column encoder
(C lines 645-648): `for(j=8; j>=1; j--){ x[j] = u & 0xff; u >>= 8; }`,
returning `x[1..8]`. -/
def intSegLoop : Nat → Nat → List Nat
  | _, 0 => []
  | u, j+1 => intSegLoop (u >>> 8) j ++ [u &&& 0xFF]

/-- The 9-byte Integer column segment: `'I'` then the bytes of the
64-bit two's-complement value (`memcpy` of the signed value into an
unsigned 64-bit word). -/
def querySegInt (v : Int) : List Nat :=
  0x49 :: intSegLoop (v % (2 : Int) ^ 64).toNat 8

/-- A typed column value of a result row.  A Float carries the
IEEE-754 bit pattern of the double as produced by the `memcpy` in the
C source (floating point itself is external to this embedding). -/
inductive SqlCol where
  | nullCol
  | intCol (v : Int)
  | floatCol (bits : Nat)
  | textCol (bytes : List Nat)
  | blobCol (bytes : List Nat)
  deriving DecidableEq, Repr

/-- One successfully compiled statement as delivered by the host
query-execution collaborator: its read-only flag (`sqlite3_stmt_readonly`),
its SQL text bytes (`sqlite3_sql`), and its result rows. -/
structure SqlStmt where
  readonly : Bool
  sql : List Nat
  rows : List (List SqlCol)
  deriving DecidableEq, Repr

/-- One `sqlite3_prepare_v2` outcome in the statement sequence: a
compiled statement, or a compile failure together with the remaining
SQL text and the engine message. -/
inductive ScriptItem where
  | ok (stmt : SqlStmt)
  | compileErr (remaining : List Nat) (msg : List Nat)
  deriving DecidableEq, Repr

/-- The per-column segment absorbed by `sha3QueryFunc`
(C lines 634-681). -/
def colSeg : SqlCol → List Nat
  | .nullCol => strBytes "N"
  | .intCol v => querySegInt v
  | .floatCol bits => 0x46 :: intSegLoop bits 8
  | .textCol t => strBytes "T" ++ decimalBytes t.length ++ strBytes ":" ++ t
  | .blobCol b => strBytes "B" ++ decimalBytes b.length ++ strBytes ":" ++ b

/-- Absorb one statement: `"S<n>:"`, the SQL text, then per row an
`"R"` and each column's segment (C lines 624-683). -/
def absorbStmt (cx : SHA3Context) (s : SqlStmt) : SHA3Context :=
  let cx1 := SHA3Update false cx
    (strBytes "S" ++ decimalBytes s.sql.length ++ strBytes ":")
  let cx2 := SHA3Update false cx1 s.sql
  s.rows.foldl
    (fun c row =>
      row.foldl (fun c2 col => SHA3Update false c2 (colSeg col))
        (SHA3Update false c (strBytes "R"))) cx2

/-- The statement loop of `sha3QueryFunc` (C lines 607-685): abort on
a compile failure or a non-read-only statement, otherwise absorb the
statement and continue; after the last statement, finalize. -/
def sha3QueryLoop (cx : SHA3Context) (iSize : Nat) :
    List ScriptItem → FuncResult × Option SHA3Context
  | [] => (.blob ((SHA3Final cx).1.take (iSize / 8)), some (SHA3Final cx).2)
  | .compileErr rem msg :: _ =>
    (.err (strBytes "error SQL statement [" ++ rem ++ strBytes "]: " ++ msg),
     some cx)
  | .ok s :: rest =>
    if s.readonly = false then
      (.err (strBytes "non-query: [" ++ s.sql ++ strBytes "]"), some cx)
    else sha3QueryLoop (absorbStmt cx s) iSize rest

/-- Body of `sha3QueryFunc` after size dispatch: a NULL SQL argument
(`sqlite3_value_text(argv[0]) == 0`) returns SQL NULL with no hash
state; otherwise the statement loop runs from a fresh context. -/
def sha3QueryRun (script : Option (List ScriptItem)) (iSize : Nat) :
    FuncResult × Option SHA3Context :=
  match script with
  | none => (.nullResult, none)
  | some items => sha3QueryLoop (SHA3Init iSize) iSize items

/-- `sha3QueryFunc` (C lines 579-687): size validation first, then the
NULL-text check, then the statement loop. -/
def sha3QueryFunc (script : Option (List ScriptItem)) (sizeArg : Option Int) :
    FuncResult × Option SHA3Context :=
  match sizeArg with
  | none => sha3QueryRun script 256
  | some z =>
    if z ≠ 224 ∧ z ≠ 256 ∧ z ≠ 384 ∧ z ≠ 512 then (.err sizeErrMsg, none)
    else sha3QueryRun script z.toNat

/-- The spec's wording of the Integer encoding: the 8 bytes of the
64-bit two's-complement value most-significant byte first. -/
def beBytes8 (u : Nat) : List Nat :=
  (List.range 8).map (fun k => (u >>> (8 * (7 - k))) &&& 0xFF)

/-- Claim C6: every Integer column value is encoded as the byte `'I'`
(0x49) followed by the 8 bytes of its 64-bit two's-complement
representation most-significant byte first, 9 bytes total. -/
theorem querySegInt_spec (v : Int) :
    querySegInt v = 0x49 :: beBytes8 (v % (2 : Int) ^ 64).toNat ∧
    (querySegInt v).length = 9 := by
  constructor
  · simp only [querySegInt, intSegLoop, beBytes8, List.range_succ, List.range_zero,
      List.map_append, List.map_cons, List.map_nil, List.nil_append, List.cons_append,
      List.append_assoc, ← Nat.shiftRight_add]
    norm_num
  · simp [querySegInt, intSegLoop]

/-- Claim C7: for every input value (for sha3) and every statement
script (for sha3_query), an explicit size argument outside
{224,256,384,512} yields exactly the error text
"SHA3 size should be one of: 224 256 384 512", with no hash state
ever initialized and no permutation run. -/
theorem sha3_invalid_size (al : Bool) (arg : SqlValue)
    (script : Option (List ScriptItem)) (z : Int)
    (hz : z ≠ 224 ∧ z ≠ 256 ∧ z ≠ 384 ∧ z ≠ 512) :
    sha3Func al arg (some z) = (.err sizeErrMsg, none) ∧
    sha3QueryFunc script (some z) = (.err sizeErrMsg, none) := by
  constructor
  · show (if z ≠ 224 ∧ z ≠ 256 ∧ z ≠ 384 ∧ z ≠ 512
      then ((.err sizeErrMsg, none) : FuncResult × Option SHA3Context)
      else sha3FuncRun al arg z.toNat) = (.err sizeErrMsg, none)
    rw [if_pos hz]
  · show (if z ≠ 224 ∧ z ≠ 256 ∧ z ≠ 384 ∧ z ≠ 512
      then ((.err sizeErrMsg, none) : FuncResult × Option SHA3Context)
      else sha3QueryRun script z.toNat) = (.err sizeErrMsg, none)
    rw [if_pos hz]

theorem sha3_invalid_size_witness :
    sha3Func false SqlValue.null (some 128) = (.err sizeErrMsg, none) ∧
    sha3QueryFunc none (some 128) = (.err sizeErrMsg, none) :=
  sha3_invalid_size false SqlValue.null none 128 (by decide)

/-- Claim C8: for every valid (or omitted) size argument, sha3 of a
NULL value returns SQL NULL, computes no hash, and never initializes a
hash state (so the Keccak permutation is never invoked). -/
theorem sha3_null_input (al : Bool) :
    sha3Func al SqlValue.null none = (.nullResult, none) ∧
    (∀ z : Int, z = 224 ∨ z = 256 ∨ z = 384 ∨ z = 512 →
      sha3Func al SqlValue.null (some z) = (.nullResult, none)) := by
  constructor
  · rfl
  · intro z hz
    rcases hz with h | h | h | h <;> subst h <;> rfl

theorem sha3_null_input_witness :
    sha3Func false SqlValue.null (some 256) = (.nullResult, none) :=
  (sha3_null_input false).2 256 (Or.inr (Or.inl rfl))

theorem sha3QueryLoop_nonquery (pre : List SqlStmt) (cx : SHA3Context)
    (iSize : Nat) (stmt : SqlStmt) (post : List ScriptItem)
    (hpre : ∀ s ∈ pre, s.readonly = true) (hs : stmt.readonly = false) :
    sha3QueryLoop cx iSize (pre.map ScriptItem.ok ++ ScriptItem.ok stmt :: post)
      = (.err (strBytes "non-query: [" ++ stmt.sql ++ strBytes "]"),
         some (pre.foldl absorbStmt cx)) := by
  induction pre generalizing cx with
  | nil =>
    simp only [List.map_nil, List.nil_append, sha3QueryLoop, List.foldl_nil]
    rw [if_pos hs]
  | cons s rest ih =>
    have hsro : s.readonly = true := hpre s (List.mem_cons_self s rest)
    simp only [List.map_cons, List.cons_append, sha3QueryLoop, List.foldl_cons]
    rw [if_neg (by simp [hsro])]
    exact ih (absorbStmt cx s) (fun x hx => hpre x (List.mem_cons_of_mem s hx))

/-- Claim C9: for every statement script, if the statements before
some non-read-only statement all compiled and are read-only, the whole
operation aborts with exactly the error "non-query: [<statement-sql>]"
for that statement and no digest is produced, no matter how many
earlier statements were already absorbed. -/
theorem sha3Query_nonquery_abort (sizeArg : Option Int)
    (hsz : sizeArg = none ∨ sizeArg = some 224 ∨ sizeArg = some 256 ∨
      sizeArg = some 384 ∨ sizeArg = some 512)
    (pre : List SqlStmt) (stmt : SqlStmt) (post : List ScriptItem)
    (hpre : ∀ s ∈ pre, s.readonly = true) (hs : stmt.readonly = false) :
    (sha3QueryFunc (some (pre.map ScriptItem.ok ++ ScriptItem.ok stmt :: post))
      sizeArg).1
      = .err (strBytes "non-query: [" ++ stmt.sql ++ strBytes "]") := by
  rcases hsz with h | h | h | h | h <;> subst h <;>
    simp only [sha3QueryFunc, sha3QueryRun] <;>
    rw [sha3QueryLoop_nonquery pre _ _ stmt post hpre hs] <;> rfl

theorem sha3Query_nonquery_abort_witness :
    (sha3QueryFunc (some [ScriptItem.ok ⟨false, strBytes "DELETE FROM t", []⟩])
      none).1
      = .err (strBytes "non-query: [" ++ strBytes "DELETE FROM t" ++ strBytes "]") :=
  sha3Query_nonquery_abort none (Or.inl rfl) [] ⟨false, strBytes "DELETE FROM t", []⟩
    [] (by simp) rfl

/-- Claim C10: a NULL SQL-text argument makes sha3_query return SQL
NULL with no error, no hashing and no permutation, for every valid or
omitted size; but since the NULL check runs after size validation, a
NULL SQL text with an invalid size still yields the size error. -/
theorem sha3Query_null_sql :
    sha3QueryFunc none none = (.nullResult, none) ∧
    (∀ z : Int, z = 224 ∨ z = 256 ∨ z = 384 ∨ z = 512 →
      sha3QueryFunc none (some z) = (.nullResult, none)) ∧
    (∀ z : Int, z ≠ 224 ∧ z ≠ 256 ∧ z ≠ 384 ∧ z ≠ 512 →
      sha3QueryFunc none (some z) = (.err sizeErrMsg, none)) := by
  refine ⟨rfl, ?_, ?_⟩
  · intro z hz
    rcases hz with h | h | h | h <;> subst h <;> rfl
  · intro z hz
    show (if z ≠ 224 ∧ z ≠ 256 ∧ z ≠ 384 ∧ z ≠ 512
      then ((.err sizeErrMsg, none) : FuncResult × Option SHA3Context)
      else sha3QueryRun none z.toNat) = (.err sizeErrMsg, none)
    rw [if_pos hz]

theorem sha3Query_null_sql_witness :
    sha3QueryFunc none (some 512) = (.nullResult, none) ∧
    sha3QueryFunc none (some 100) = (.err sizeErrMsg, none) :=
  ⟨sha3Query_null_sql.2.1 512 (Or.inr (Or.inr (Or.inr rfl))),
   sha3Query_null_sql.2.2 100 (by decide)⟩
